import Mathlib

/-!
Verification development for the routing / JSON-guard subsystem of the
ShaggyAI repository (`app/product_scope.py`, `app/capability_registry.py`,
`app/json_guard.py`, `app/semantic_router.py`).

The Python code is shallowly embedded: pure functions become Lean
functions, the mutable `CapabilityRegistry` object becomes explicit state
passing, fallible Python code (uncaught exceptions) becomes `Except`, and
float confidences are modelled exactly as rationals.  External libraries
(`yaml.safe_load`, `json.loads` + pydantic `model_validate`, the LLM
client, and the `re`-based text detectors of `app/time_policy.py` /
`app/utils.py`) are treated as opaque parameters at their call boundary;
all control flow of the embedded files is reproduced from the source.
-/

namespace ShaggyAI

/-- ASCII brace characters, named to keep literals readable. -/
def lbrace : Char := Char.ofNat 123

def rbrace : Char := Char.ofNat 125

def backtick : Char := Char.ofNat 96

/-- Python `str.strip()` whitespace set: space, tab, newline, carriage
return, vertical tab, form feed. -/
def isPyWs (c : Char) : Bool :=
  c = ' ' || c = '\t' || c = '\n' || c = '\r' || c = Char.ofNat 11 || c = Char.ofNat 12

/-- Python `str.strip()` on a list of characters. -/
def pyStripChars (cs : List Char) : List Char :=
  ((cs.dropWhile isPyWs).reverse.dropWhile isPyWs).reverse

/-- Python `str.strip()`. -/
def pyStrip (s : String) : String :=
  String.mk (pyStripChars s.data)

/-- Substring test (Python `needle in haystack` for strings). -/
def strContains (haystack needle : List Char) : Bool :=
  match haystack with
  | [] => needle.isPrefixOf []
  | _ :: rest => needle.isPrefixOf haystack || strContains rest needle

/-- A dynamically typed Python value, as produced by `yaml.safe_load` and
stored in the open `entities` map of a `RouteDecision`. -/
inductive PyVal where
  | none
  | bool (b : Bool)
  | int (n : Int)
  | str (s : String)
  | list (xs : List PyVal)
  | dict (kvs : List (String × PyVal))

/-- Python truthiness (`bool(v)`). -/
def PyVal.truthy : PyVal → Bool
  | .none => false
  | .bool b => b
  | .int n => n != 0
  | .str s => !s.isEmpty
  | .list xs => !xs.isEmpty
  | .dict kvs => !kvs.isEmpty

/-- Python `v == k` where `k` is a string: only equal strings compare equal. -/
def PyVal.eqStr : PyVal → String → Bool
  | .str s, k => s == k
  | _, _ => false

/-- Python `str(v)`.  The exact rendering of containers is never observed
by any claim (it only feeds the opaque schema validator), so containers
are rendered schematically. -/
def PyVal.pyStr : PyVal → String
  | .none => "None"
  | .bool b => if b then "True" else "False"
  | .int n => toString n
  | .str s => s
  | .list _ => "<list>"
  | .dict _ => "<dict>"

/-- Python `k in v` for a string key `k`: key membership for dicts,
element equality for lists, substring test for strings, and a `TypeError`
for non-iterable values. -/
def pyIn (k : String) : PyVal → Except String Bool
  | .dict kvs => .ok (kvs.any (fun p => p.1 == k))
  | .list xs => .ok (xs.any (fun v => v.eqStr k))
  | .str s => .ok (strContains s.data k.data)
  | .none => .error "TypeError: argument of type NoneType is not iterable"
  | .bool _ => .error "TypeError: argument of type bool is not iterable"
  | .int _ => .error "TypeError: argument of type int is not iterable"

/-- Python `data[k] = str(data[k])`: replaces the value on dicts (the key
is already present when this is called), raises `TypeError` otherwise. -/
def pySetItemStr (k : String) : PyVal → Except String PyVal
  | .dict kvs =>
      .ok (.dict (kvs.map (fun p => if p.1 == k then (p.1, .str p.2.pyStr) else p)))
  | _ => .error "TypeError: object does not support item assignment"

/-- `dict.get(k)` returning Python `None` when absent. -/
def entGet (kvs : List (String × PyVal)) (k : String) : PyVal :=
  match kvs.find? (fun p => p.1 == k) with
  | some p => p.2
  | Option.none => PyVal.none

/-- `dict.get(k, default)`. -/
def entGetD (kvs : List (String × PyVal)) (k : String) (d : PyVal) : PyVal :=
  match kvs.find? (fun p => p.1 == k) with
  | some p => p.2
  | Option.none => d

/-- `dict[k] = v`: replaces in place if present, otherwise appends
(Python dicts keep insertion order). -/
def entSet (kvs : List (String × PyVal)) (k : String) (v : PyVal) : List (String × PyVal) :=
  if kvs.any (fun p => p.1 == k) then
    kvs.map (fun p => if p.1 == k then (p.1, v) else p)
  else
    kvs ++ [(k, v)]

/-! ## `app/product_scope.py` -/

/-- `ProductScope`: the allow-list of capability ids extracted from
`PRODUCT_SCOPE.md`.  The Python field is a `set[str]`; only membership and
iteration are used, so it is carried as a list of ids. -/
structure ProductScope where
  capabilities : List String

/-- `ProductScope.is_allowed`. -/
def ProductScope.is_allowed (scope : ProductScope) (capability_id : String) : Bool :=
  scope.capabilities.contains capability_id

/-- Loop body of `ProductScope.filter_allowed`, threading the `seen` set. -/
def filterAllowedGo (scope : ProductScope) : List String → List String → List String
  | [], _ => []
  | capability_id :: rest, seen =>
      if seen.contains capability_id then
        filterAllowedGo scope rest seen
      else if scope.capabilities.contains capability_id then
        capability_id :: filterAllowedGo scope rest (capability_id :: seen)
      else
        filterAllowedGo scope rest (capability_id :: seen)

/-- `ProductScope.filter_allowed`: order-preserving dedup keeping only
allowed ids. -/
def ProductScope.filter_allowed (scope : ProductScope) (capability_ids : List String) :
    List String :=
  filterAllowedGo scope capability_ids []

/-! ## `app/capability_registry.py` -/

/-- `JsonSchema` (pydantic model): auditability-only schema descriptor. -/
structure JsonSchema where
  type_ : String := "object"
  required : List String := []
  properties : List (String × PyVal) := []

/-- `CapabilityDefinition` (pydantic model).  `phase` carries the pydantic
constraint `ge=1` implicitly: any value produced by a successful
`model_validate` satisfies it, which no claim consults. -/
structure CapabilityDefinition where
  id : String
  phase : Int
  provider : String
  summary : String
  input_schema : JsonSchema
  output_schema : JsonSchema
  fallback_to : List String := []

/-- `CapabilityRegistryFile` (pydantic model): the validated top-level
document. -/
structure CapabilityRegistryFile where
  version : Int
  updated_at : String
  capabilities : List CapabilityDefinition

/-- The mutable state of a `CapabilityRegistry` object: attached scope and
the fields written by `reload`.  `_capabilities` is an insertion-ordered
`dict[str, CapabilityDefinition]`, carried as an association list. -/
structure CapabilityRegistry where
  product_scope : Option ProductScope
  version : Int := 0
  updated_at : String := ""
  capabilities : List (String × CapabilityDefinition) := []

/-- Association-list lookup (`dict.get`). -/
def lookupCap : List (String × CapabilityDefinition) → String → Option CapabilityDefinition
  | [], _ => Option.none
  | p :: rest, k => if p.1 == k then some p.2 else lookupCap rest k

/-- `CapabilityRegistry.get`: not-found when the id is absent or an
attached scope denies it. -/
def CapabilityRegistry.get (r : CapabilityRegistry) (capability_id : String) :
    Option CapabilityDefinition :=
  match lookupCap r.capabilities capability_id with
  | Option.none => Option.none
  | some capability =>
      match r.product_scope with
      | some scope =>
          if scope.is_allowed capability_id then some capability else Option.none
      | Option.none => some capability

/-- `CapabilityRegistry.all_ids`: all known ids, scope-filtered when a
scope is attached. -/
def CapabilityRegistry.all_ids (r : CapabilityRegistry) : List String :=
  match r.product_scope with
  | Option.none => r.capabilities.map (fun p => p.1)
  | some scope => (r.capabilities.map (fun p => p.1)).filter scope.is_allowed

/-- Loop of `CapabilityRegistry.resolve_chain` over the fallback ids,
threading the growing chain and the `seen` set. -/
def chainFold (r : CapabilityRegistry) :
    List String → List String → List String → List String
  | [], chain, _ => chain
  | fallback_id :: rest, chain, seen =>
      if seen.contains fallback_id then
        chainFold r rest chain seen
      else
        match r.get fallback_id with
        | some _ => chainFold r rest (chain ++ [fallback_id]) (seen ++ [fallback_id])
        | Option.none => chainFold r rest chain seen

/-- `CapabilityRegistry.resolve_chain`. -/
def CapabilityRegistry.resolve_chain (r : CapabilityRegistry) (primary_capability : String) :
    List String :=
  match r.get primary_capability with
  | Option.none => []
  | some first => chainFold r first.fallback_to [primary_capability] [primary_capability]

/-- `CapabilityRegistry.ensure_scope_consistency`, returned as the two
difference lists (scope ids absent from registry, registry ids absent
from scope). -/
def CapabilityRegistry.ensure_scope_consistency (r : CapabilityRegistry) :
    List String × List String :=
  match r.product_scope with
  | Option.none => ([], [])
  | some scope =>
      (scope.capabilities.filter (fun i => !(r.capabilities.map (fun p => p.1)).contains i),
       (r.capabilities.map (fun p => p.1)).filter (fun i => !scope.capabilities.contains i))

/-- Outcome of `yaml.safe_load(path.read_text())`: either the parsed
value or a raised parser error (which `reload` does not catch). -/
inductive SafeLoad where
  | raises (msg : String)
  | value (v : PyVal)

/-- The on-disk registry source as `reload` observes it: whether the path
exists, and what loading it yields. -/
structure RegistrySource where
  file_exists : Bool
  loaded : SafeLoad

/-- First-occurrence-wins deduplication of `reload` (`ids_seen` loop). -/
def dedupCaps : List CapabilityDefinition → List String → List (String × CapabilityDefinition)
  | [], _ => []
  | c :: rest, seen =>
      if seen.contains c.id then dedupCaps rest seen
      else (c.id, c) :: dedupCaps rest (c.id :: seen)

/-- `CapabilityRegistry.reload`.  `validate` is pydantic
`CapabilityRegistryFile.model_validate`: `.error` is a `ValidationError`
(the only exception `reload` catches).  The result is `.error` exactly
when the Python method raises to its caller. -/
def CapabilityRegistry.reload (validate : PyVal → Except String CapabilityRegistryFile)
    (src : RegistrySource) (r : CapabilityRegistry) : Except String CapabilityRegistry :=
  if !src.file_exists then
    .ok { r with capabilities := [] }
  else
    match src.loaded with
    | .raises msg => .error msg
    | .value v =>
        let data := if v.truthy then v else PyVal.dict []
        match pyIn "updated_at" data with
        | .error msg => .error msg
        | .ok b =>
            match (if b then pySetItemStr "updated_at" data else .ok data) with
            | .error msg => .error msg
            | .ok data2 =>
                match validate data2 with
                | .error _ => .ok { r with capabilities := [] }
                | .ok parsed =>
                    .ok { r with
                          version := parsed.version,
                          updated_at := parsed.updated_at,
                          capabilities := dedupCaps parsed.capabilities [] }

/-! ## `app/json_guard.py` -/

/-- `JsonGuardTrace`: raw model replies seen during one guarded call and
the most recent validation-failure message. -/
structure JsonGuardTrace where
  outputs : List String := []
  last_error : String := ""

/-- The leading substitution of `_strip_fences`:
`re.sub(r"^` ``` `(?:json)?\s*", "", cleaned, flags=IGNORECASE)`. -/
def stripLeadingFence (cs : List Char) : List Char :=
  match cs with
  | b1 :: b2 :: b3 :: rest =>
      if b1 = backtick && b2 = backtick && b3 = backtick then
        let rest2 :=
          match rest with
          | j :: s :: o :: n :: r2 =>
              if j.toLower = 'j' && s.toLower = 's' && o.toLower = 'o' && n.toLower = 'n' then
                r2
              else rest
          | _ => rest
        rest2.dropWhile isPyWs
      else cs
  | _ => cs

/-- The trailing substitution of `_strip_fences`:
`re.sub(r"\s*` ``` `$", "", cleaned)`. -/
def stripTrailingFence (cs : List Char) : List Char :=
  match cs.reverse with
  | b1 :: b2 :: b3 :: rest =>
      if b1 = backtick && b2 = backtick && b3 = backtick then
        (rest.dropWhile isPyWs).reverse
      else cs
  | _ => cs

/-- `_strip_fences`: removes markdown fences around JSON. -/
def stripFences (text : String) : String :=
  let cleaned := pyStripChars text.data
  let cleaned := stripLeadingFence cleaned
  let cleaned := stripTrailingFence cleaned
  String.mk (pyStripChars cleaned)

/-- The scanning loop of `_extract_first_json_object`, started at the
first opening brace: tracks depth, string-literal and escape state, and
returns the consumed span when the depth returns to zero. -/
def extractScan : List Char → Nat → Bool → Bool → List Char → Option (List Char)
  | [], _, _, _, _ => Option.none
  | c :: rest, depth, in_string, escaped, acc =>
      if escaped then extractScan rest depth in_string false (c :: acc)
      else if c = '\\' then extractScan rest depth in_string true (c :: acc)
      else if c = '"' then extractScan rest depth (!in_string) false (c :: acc)
      else if in_string then extractScan rest depth in_string false (c :: acc)
      else if c = lbrace then extractScan rest (depth + 1) in_string false (c :: acc)
      else if c = rbrace then
        if depth = 1 then some (c :: acc).reverse
        else extractScan rest (depth - 1) in_string false (c :: acc)
      else extractScan rest depth in_string false (c :: acc)

/-- `_extract_first_json_object`: extracts the first balanced JSON object
from text. -/
def extractFirstJsonObject (text : String) : String :=
  let cleaned := stripFences text
  if cleaned.isEmpty then ""
  else
    let cs := cleaned.data
    if cs.head? == some lbrace && cs.getLast? == some rbrace then cleaned
    else
      match cs.dropWhile (fun c => c ≠ lbrace) with
      | [] => ""
      | tail => match extractScan tail 0 false false [] with
                | some obj => String.mk obj
                | Option.none => ""

/-- The trailing-comma substitution of `_local_json_repair`:
`re.sub(r",\s*([}\]])", r"\1", candidate)`, scanned left to right without
rescanning replacements, exactly as `re.sub` does. -/
def stripTrailingCommasFuel : Nat → List Char → List Char
  | 0, cs => cs
  | _ + 1, [] => []
  | fuel + 1, c :: rest =>
      if c = ',' then
        match rest.dropWhile isPyWs with
        | b :: rest3 =>
            if b = rbrace || b = ']' then stripTrailingCommasFuel fuel (b :: rest3)
            else c :: stripTrailingCommasFuel fuel rest
        | [] => c :: stripTrailingCommasFuel fuel rest
      else c :: stripTrailingCommasFuel fuel rest

/-- Entry point of the substitution.  The fuel is the input length:
every recursive step consumes at least one character, so the fuel never
runs out and the fuel-free recursion is computed exactly (structural
recursion keeps the definition kernel-reducible). -/
def stripTrailingCommasGo (cs : List Char) : List Char :=
  stripTrailingCommasFuel cs.length cs

/-- `_local_json_repair`: cheap local repairs before asking the model to
regenerate. -/
def local_json_repair (raw : String) : String :=
  let candidate := extractFirstJsonObject raw
  let candidate := if candidate.isEmpty then stripFences raw else candidate
  pyStrip (String.mk (stripTrailingCommasGo candidate.data))

/-- `validate_json_output`: extract, then parse + pydantic-validate.
`decode` is the opaque composition `json.loads` + `model_validate`; its
`.error` is the stringified exception the caller catches. -/
def validate_json_output {α : Type} (decode : String → Except String α) (raw : String) :
    Except String α :=
  let candidate := extractFirstJsonObject raw
  if candidate.isEmpty then .error "No se encontro objeto JSON en la salida."
  else decode candidate

/-- One attempt's inner candidate loop
(`for candidate in (raw, _local_json_repair(raw))`): returns the parsed
value if some candidate validates, and the value `trace.last_error` holds
after the attempt (unchanged when the first candidate validates). -/
def runCandidates {α : Type} (decode : String → Except String α) (raw : String)
    (lastErr : String) : Option α × String :=
  match validate_json_output decode raw with
  | .ok v => (some v, lastErr)
  | .error e1 =>
      match validate_json_output decode (local_json_repair raw) with
      | .ok v => (some v, e1)
      | .error e2 => (Option.none, e2)

/-- The retry loop of `generate_validated_json`.  `replies i` is the raw
text the opaque model client returns on attempt `i`; `fuel` is the number
of attempts still available. -/
def jgRun {α : Type} (decode : String → Except String α) (replies : Nat → String) :
    Nat → Nat → JsonGuardTrace → Option α × JsonGuardTrace
  | 0, _, trace => (Option.none, trace)
  | fuel + 1, i, trace =>
      let raw := replies i
      let trace1 : JsonGuardTrace := { trace with outputs := trace.outputs ++ [raw] }
      match runCandidates decode raw trace1.last_error with
      | (some v, le) => (some v, { trace1 with last_error := le })
      | (Option.none, le) =>
          let trace2 : JsonGuardTrace := { trace1 with last_error := le }
          if fuel = 0 then (Option.none, trace2)
          else jgRun decode replies fuel (i + 1) trace2

/-- `generate_validated_json`: generation → schema validation → repair
loop with `max(0, max_retries) + 1` total attempts. -/
def generate_validated_json {α : Type} (decode : String → Except String α)
    (replies : Nat → String) (max_retries : Int) : Option α × JsonGuardTrace :=
  jgRun decode replies ((max 0 max_retries).toNat + 1) 0 {}

/-! ## `app/semantic_router.py` -/

/-- The `re`-based text detectors the router consults, treated as opaque
pure predicates on the message text: the module-level hint regexes of
`app/semantic_router.py`, `app.time_policy.has_temporal_reference`,
`app.utils.extract_search_intent` and `SemanticRouter._normalize_query`.
Every theorem below quantifies over these, so it holds in particular for
the concrete regex implementations. -/
structure TextOracles where
  hasTemporal : String → Bool
  extractSearch : String → Option String
  normalizeQuery : String → String
  reminderHint : String → Bool
  memPurgeHint : String → Bool
  memUpdateHint : String → Bool
  memDeleteHint : String → Bool
  memRecallHint : String → Bool
  memStoreHint : String → Bool
  webHint : String → Bool
  newsHint : String → Bool

/-- `RouteDecision` (pydantic model).  `confidence` is a float constrained
to `[0, 1]` at construction; it is modelled as an exact rational. -/
structure RouteDecision where
  intent : String := "general_chat"
  entities : List (String × PyVal) := []
  candidate_tools : List String := ["chat_general"]
  confidence : ℚ := 1/2
  needs_clarification : Bool := false
  clarification_question : String := ""

/-- Python `a or b` on an optional string against a string default
(`extract_search_intent(message) or self._normalize_query(message)`). -/
def pyOrStr (o : Option String) (d : String) : String :=
  match o with
  | some s => if s.isEmpty then d else s
  | Option.none => d

/-- `SemanticRouter._heuristic_route`: the fixed-priority detector
cascade.  Detector outcomes come from `o`; confidences, intents, entity
maps and default candidate lists are the source's literals. -/
def heuristic_route (o : TextOracles) (message : String) : RouteDecision :=
  let message_clean := pyStrip message
  let message_lower := message_clean.toLower
  let temporal := o.hasTemporal message_clean
  if o.reminderHint message_clean then
    { intent := "reminder_management",
      entities := [("temporal_reference", PyVal.bool temporal)],
      candidate_tools := ["reminder_create", "reminder_list", "reminder_delete"],
      confidence := 80/100 }
  else if o.memPurgeHint message_clean then
    { intent := "memory_purge",
      entities := [("temporal_reference", PyVal.bool temporal)],
      candidate_tools := ["memory_purge_all", "chat_general"],
      confidence := 76/100 }
  else if o.memUpdateHint message_clean then
    { intent := "memory_update",
      entities := [("temporal_reference", PyVal.bool temporal)],
      candidate_tools := ["memory_update_user_fact", "memory_recall_profile"],
      confidence := 72/100 }
  else if o.memDeleteHint message_clean then
    { intent := "memory_delete",
      entities := [("temporal_reference", PyVal.bool temporal)],
      candidate_tools := ["memory_delete_user_fact", "memory_recall_profile"],
      confidence := 72/100 }
  else if o.memRecallHint message_clean then
    { intent := "memory_recall",
      entities := [("temporal_reference", PyVal.bool temporal)],
      candidate_tools := ["memory_recall_profile", "memory_retrieval"],
      confidence := 73/100 }
  else if o.memStoreHint message_clean then
    { intent := "memory_store",
      entities := [("temporal_reference", PyVal.bool temporal)],
      candidate_tools := ["memory_store_user_fact", "memory_store_summary"],
      confidence := 73/100 }
  else
    let extracted_query := o.extractSearch message_clean
    let explicit_web := o.webHint message_clean
    if !(pyOrStr extracted_query "").isEmpty || explicit_web then
      let query := pyOrStr extracted_query (o.normalizeQuery message_clean)
      let primary :=
        if o.newsHint message_lower then "web_search_news" else "web_search_general"
      { intent := "web_search",
        entities := [("query", PyVal.str query),
                     ("temporal_reference", PyVal.bool temporal),
                     ("prefer_news", PyVal.bool (primary == "web_search_news"))],
        candidate_tools := [primary, "web_search_general", "chat_general"],
        confidence := 78/100 }
    else if temporal then
      { intent := "time_sensitive_answer",
        entities := [("temporal_reference", PyVal.bool true)],
        candidate_tools := ["get_current_datetime", "chat_general"],
        confidence := 70/100 }
    else
      { intent := "general_chat",
        entities := [("temporal_reference", PyVal.bool false)],
        candidate_tools := ["chat_general"],
        confidence := 55/100 }

/-- The intent-synonym canonicalization table of `_sanitize_decision`. -/
def intentAlias (intent : String) : String :=
  if intent == "memory_edit" then "memory_update"
  else if intent == "memory_forget" then "memory_delete"
  else if intent == "memory_wipe" then "memory_purge"
  else if intent == "memory_reset" then "memory_purge"
  else intent

/-- `_sanitize_decision`, first step on `filtered`:
`[t for t in decision.candidate_tools if t in allowed_tools]`. -/
def scopedTools (registry : CapabilityRegistry) (decision : RouteDecision) : List String :=
  decision.candidate_tools.filter (fun t => registry.all_ids.contains t)

/-- `_sanitize_decision`, second step: `chat_general` fallback when the
filtered list is empty and the id is registry/scope-enumerable. -/
def withChatFallback (registry : CapabilityRegistry) (l : List String) : List String :=
  if l.isEmpty then
    if registry.all_ids.contains "chat_general" then ["chat_general"] else []
  else l

/-- `_sanitize_decision`, third step: prepend `get_current_datetime` on a
temporal reference when enumerable and not already present. -/
def withTemporalTool (o : TextOracles) (registry : CapabilityRegistry) (message : String)
    (decision : RouteDecision) (l : List String) : List String :=
  if ((entGet decision.entities "temporal_reference").truthy || o.hasTemporal message)
      && registry.all_ids.contains "get_current_datetime"
      && !l.contains "get_current_datetime" then
    "get_current_datetime" :: l
  else l

/-- `_sanitize_decision`, fourth step: the per-intent primary-tool
insertion chain (`web_search` / `memory_*`). -/
def withIntentPrimary (registry : CapabilityRegistry) (intent : String) (l : List String) :
    List String :=
  if intent == "web_search" then
    if registry.all_ids.contains "web_search_general"
        && !(l.any (fun t => t == "web_search_general" || t == "web_search_news")) then
      "web_search_general" :: l
    else l
  else if intent == "memory_store" then
    if registry.all_ids.contains "memory_store_user_fact"
        && !l.contains "memory_store_user_fact" then
      "memory_store_user_fact" :: l
    else l
  else if intent == "memory_recall" then
    if registry.all_ids.contains "memory_recall_profile"
        && !l.contains "memory_recall_profile" then
      "memory_recall_profile" :: l
    else l
  else if intent == "memory_update" then
    if registry.all_ids.contains "memory_update_user_fact"
        && !l.contains "memory_update_user_fact" then
      "memory_update_user_fact" :: l
    else l
  else if intent == "memory_delete" then
    if registry.all_ids.contains "memory_delete_user_fact"
        && !l.contains "memory_delete_user_fact" then
      "memory_delete_user_fact" :: l
    else l
  else if intent == "memory_purge" then
    if registry.all_ids.contains "memory_purge_all" && !l.contains "memory_purge_all" then
      "memory_purge_all" :: l
    else l
  else l

/-- The `filtered` list of `_sanitize_decision` just before
`product_scope.filter_allowed` is applied: the four sequential mutation
steps of the source, composed. -/
def sanitizeFiltered (o : TextOracles) (registry : CapabilityRegistry) (message : String)
    (decision : RouteDecision) (intent : String) : List String :=
  withIntentPrimary registry intent
    (withTemporalTool o registry message decision
      (withChatFallback registry (scopedTools registry decision)))

/-- The `entities` update of `_sanitize_decision` (the `web_search`
branch fills in a missing `query`). -/
def sanitizeEntities (o : TextOracles) (message : String) (decision : RouteDecision)
    (intent : String) : List (String × PyVal) :=
  if intent == "web_search" then
    let query := pyStrip (entGetD decision.entities "query" (PyVal.str "")).pyStr
    if query.isEmpty then
      let query2 := pyOrStr (o.extractSearch message) (o.normalizeQuery message)
      entSet decision.entities "query" (PyVal.str query2)
    else decision.entities
  else decision.entities

/-- `SemanticRouter._sanitize_decision`: canonicalizes the intent, forces
`candidate_tools` into scope/registry, and clamps confidence.  `registry`
is `self.capability_registry` and `scope` is `self.product_scope`. -/
def sanitize_decision (o : TextOracles) (registry : CapabilityRegistry)
    (scope : ProductScope) (message : String) (decision : RouteDecision) : RouteDecision :=
  let intent := intentAlias decision.intent
  let filtered := sanitizeFiltered o registry message decision intent
  let entities := sanitizeEntities o message decision intent
  let tools0 := scope.filter_allowed filtered
  let tools :=
    if tools0.isEmpty then
      if scope.is_allowed "chat_general" then ["chat_general"] else []
    else tools0
  let question :=
    if decision.needs_clarification && decision.clarification_question.isEmpty then
      "Podrias darme un poco mas de contexto para ayudarte mejor?"
    else decision.clarification_question
  let confidence :=
    if decision.confidence < 5/100 then 5/100
    else if decision.confidence > 1 then 1
    else decision.confidence
  { intent := intent,
    entities := entities,
    candidate_tools := tools,
    confidence := confidence,
    needs_clarification := decision.needs_clarification,
    clarification_question := question }

/-- `SemanticRouter._semantic_route_with_llm`, at its deterministic
boundary: when the scope-filtered tool enumeration is empty the model is
never consulted and no decision is produced; otherwise `llmOut` is
whatever `generate_validated_json` returned (`none` when the retry budget
was exhausted). -/
def semantic_route_with_llm (registry : CapabilityRegistry)
    (llmOut : Option RouteDecision) : Option RouteDecision :=
  if registry.all_ids.isEmpty then Option.none else llmOut

/-- The confidence-fusion choice inside `SemanticRouter.route`. -/
def fuseDecision (heuristic : RouteDecision) (semantic : Option RouteDecision) :
    RouteDecision :=
  match semantic with
  | some s =>
      if s.confidence ≥ max (35/100 : ℚ) (heuristic.confidence - 10/100) then s
      else heuristic
  | Option.none => heuristic

/-- `SemanticRouter.route`: heuristic pass, semantic pass, confidence
fusion, sanitization. -/
def route (o : TextOracles) (registry : CapabilityRegistry) (scope : ProductScope)
    (llmOut : Option RouteDecision) (message : String) : RouteDecision :=
  let heuristic := heuristic_route o message
  let semantic := semantic_route_with_llm registry llmOut
  let decision := fuseDecision heuristic semantic
  sanitize_decision o registry scope message decision

/-! ## Shared concrete values used by witnesses -/

/-- A minimal capability definition, as `model_validate` would produce. -/
def capDef (i : String) (fb : List String) : CapabilityDefinition :=
  { id := i, phase := 1, provider := "internal", summary := "capability " ++ i,
    input_schema := {}, output_schema := {}, fallback_to := fb }

/-- A scope allowing only `chat_general`. -/
def scopeCG : ProductScope := ⟨["chat_general"]⟩

/-- A registry whose catalog lacks `chat_general` while the attached
scope allows it. -/
def regEmptyWithScope : CapabilityRegistry := { product_scope := some scopeCG }

/-- Registry where the primary id `a` exists but is denied by scope while
its fallback `chat_general` resolves. -/
def regDenyPrimary : CapabilityRegistry :=
  { product_scope := some scopeCG,
    capabilities := [("a", capDef "a" ["chat_general"]),
                     ("chat_general", capDef "chat_general" [])] }

/-- Oracles whose detectors never fire (one concrete instantiation of the
opaque regex layer). -/
def oracleNone : TextOracles :=
  { hasTemporal := fun _ => false, extractSearch := fun _ => Option.none,
    normalizeQuery := fun s => s, reminderHint := fun _ => false,
    memPurgeHint := fun _ => false, memUpdateHint := fun _ => false,
    memDeleteHint := fun _ => false, memRecallHint := fun _ => false,
    memStoreHint := fun _ => false, webHint := fun _ => false,
    newsHint := fun _ => false }

/-! ## Helper lemmas -/

lemma lookupCap_of_mem_keys {caps : List (String × CapabilityDefinition)} {i : String}
    (h : i ∈ caps.map (fun p => p.1)) : ∃ c, lookupCap caps i = some c := by
  induction caps with
  | nil => simp at h
  | cons p rest ih =>
      simp only [List.map_cons, List.mem_cons] at h
      by_cases hp : p.1 = i
      · exact ⟨p.2, by simp [lookupCap, hp]⟩
      · rcases h with h | h
        · exact absurd h.symm hp
        · obtain ⟨c, hc⟩ := ih h
          exact ⟨c, by simp [lookupCap, hp, hc]⟩

lemma get_ne_none_of_mem_all_ids {r : CapabilityRegistry} {i : String}
    (h : i ∈ r.all_ids) : r.get i ≠ Option.none := by
  unfold CapabilityRegistry.all_ids at h
  unfold CapabilityRegistry.get
  cases hps : r.product_scope with
  | none =>
      rw [hps] at h
      obtain ⟨c, hc⟩ := lookupCap_of_mem_keys h
      simp [hc]
  | some scope =>
      rw [hps] at h
      have h2 := List.mem_filter.mp h
      obtain ⟨c, hc⟩ := lookupCap_of_mem_keys h2.1
      simp [hc, h2.2]

lemma mem_filterAllowedGo {scope : ProductScope} :
    ∀ {l seen : List String} {i : String}, i ∈ filterAllowedGo scope l seen →
      i ∈ l ∧ scope.capabilities.contains i = true := by
  intro l
  induction l with
  | nil => intro seen i h; simp [filterAllowedGo] at h
  | cons x rest ih =>
      intro seen i h
      by_cases h1 : seen.contains x = true
      · simp only [filterAllowedGo, h1, if_true] at h
        exact ⟨List.mem_cons_of_mem _ (ih h).1, (ih h).2⟩
      · by_cases h2 : scope.capabilities.contains x = true
        · simp only [filterAllowedGo, h1, h2, if_true, if_false] at h
          rcases List.mem_cons.mp h with h3 | h3
          · subst h3; exact ⟨List.mem_cons_self _ _, h2⟩
          · exact ⟨List.mem_cons_of_mem _ (ih h3).1, (ih h3).2⟩
        · simp only [filterAllowedGo, h1, h2, if_false] at h
          exact ⟨List.mem_cons_of_mem _ (ih h).1, (ih h).2⟩

lemma chainFold_spec {r : CapabilityRegistry} :
    ∀ (fbs chain : List String),
      chain.Nodup → (∀ i ∈ chain, r.get i ≠ Option.none) →
      (chainFold r fbs chain chain).Nodup ∧
        ∀ i ∈ chainFold r fbs chain chain, r.get i ≠ Option.none := by
  intro fbs
  induction fbs with
  | nil => intro chain h1 h2; exact ⟨h1, h2⟩
  | cons fid rest ih =>
      intro chain h1 h2
      by_cases hseen : fid ∈ chain
      · simpa [chainFold, hseen] using ih chain h1 h2
      · cases hget : r.get fid with
        | none => simpa [chainFold, hseen, hget] using ih chain h1 h2
        | some c =>
            have hnd : (chain ++ [fid]).Nodup := by
              simp [List.nodup_append, h1, hseen]
            have hres : ∀ i ∈ chain ++ [fid], r.get i ≠ Option.none := by
              intro i hi
              rcases List.mem_append.mp hi with h3 | h3
              · exact h2 i h3
              · rw [List.mem_singleton.mp h3]; simp [hget]
            simpa [chainFold, hseen, hget] using ih (chain ++ [fid]) hnd hres

/-! ## Claims about `CapabilityRegistry` -/

/-- C5: for every registry state and capability id, `resolve_chain`
returns a duplicate-free list in which every id resolves via `get` under
the attached scope (unresolvable fallback ids having been silently
skipped). -/
theorem resolve_chain_nodup_resolvable (r : CapabilityRegistry) (primary : String) :
    (r.resolve_chain primary).Nodup ∧
      ∀ i ∈ r.resolve_chain primary, r.get i ≠ Option.none := by
  unfold CapabilityRegistry.resolve_chain
  cases hget : r.get primary with
  | none => simp
  | some first =>
      apply chainFold_spec
      · simp
      · intro i hi
        rw [List.mem_singleton.mp hi]
        simp [hget]

/-- C10: when `get` does not resolve the primary id, `resolve_chain`
returns the empty list without consulting the fallback chain. -/
theorem resolve_chain_nil_of_unresolvable (r : CapabilityRegistry) (primary : String)
    (h : r.get primary = Option.none) : r.resolve_chain primary = [] := by
  simp [CapabilityRegistry.resolve_chain, h]

/-- Witness for C10: in `regDenyPrimary` the primary `a` is denied by
scope although its fallback `chat_general` would resolve; the chain is
empty. -/
theorem resolve_chain_nil_witness :
    regDenyPrimary.get "a" = Option.none ∧ regDenyPrimary.resolve_chain "a" = [] :=
  ⟨rfl, resolve_chain_nil_of_unresolvable regDenyPrimary "a" rfl⟩

/-- C4 (divergence evaluation): a registry document whose YAML parses to
the non-iterable value `5` makes `reload` raise (`TypeError` at
`"updated_at" in data`) instead of degrading to an empty capability map
as the specification requires. -/
theorem reload_raises_on_non_iterable_document :
    CapabilityRegistry.reload (fun _ => Except.error "ValidationError")
        { file_exists := true, loaded := SafeLoad.value (PyVal.int 5) }
        { product_scope := Option.none } =
      Except.error "TypeError: argument of type int is not iterable" := by rfl

/-- The non-raising failure paths of `reload`: the file is missing, or
the loaded document reaches pydantic validation and fails it. -/
def loadFailsCaught (validate : PyVal → Except String CapabilityRegistryFile)
    (src : RegistrySource) : Prop :=
  src.file_exists = false ∨
    ∃ v b d2 e,
      src.loaded = SafeLoad.value v ∧
      pyIn "updated_at" (if v.truthy then v else PyVal.dict []) = .ok b ∧
      (if b then pySetItemStr "updated_at" (if v.truthy then v else PyVal.dict [])
       else .ok (if v.truthy then v else PyVal.dict [])) = .ok d2 ∧
      validate d2 = .error e

/-- C9: on the non-raising failure paths of `reload` (missing file or
schema-validation failure) only the capability map is replaced with the
empty map; `version` and `updated_at` keep their prior values. -/
theorem reload_failure_frame (validate : PyVal → Except String CapabilityRegistryFile)
    (src : RegistrySource) (r : CapabilityRegistry)
    (h : loadFailsCaught validate src) :
    CapabilityRegistry.reload validate src r = Except.ok { r with capabilities := [] } := by
  unfold CapabilityRegistry.reload
  rcases h with h | ⟨v, b, d2, e, hv, hin, hset, hval⟩
  · simp [h]
  · by_cases hex : src.file_exists = true
    · simp only [hex, Bool.not_true, Bool.false_eq_true, if_false, hv]
      simp only [hin, hset, hval]
    · simp only [Bool.not_eq_true] at hex
      simp [hex]

/-- Witness for C9: reloading from a missing file preserves `version = 7`
and `updated_at` while emptying the capability map. -/
theorem reload_failure_frame_witness :
    CapabilityRegistry.reload (fun _ => Except.error "ValidationError")
        { file_exists := false, loaded := SafeLoad.value PyVal.none }
        { product_scope := Option.none, version := 7, updated_at := "2025-01-01",
          capabilities := [("chat_general", capDef "chat_general" [])] } =
      Except.ok { product_scope := Option.none, version := 7, updated_at := "2025-01-01",
                  capabilities := [] } :=
  reload_failure_frame (fun _ => Except.error "ValidationError")
    { file_exists := false, loaded := SafeLoad.value PyVal.none }
    { product_scope := Option.none, version := 7, updated_at := "2025-01-01",
      capabilities := [("chat_general", capDef "chat_general" [])] }
    (Or.inl rfl)

/-! ## Claim about the JSON object extractor -/

/-- C7: the object extractor returns exactly the first balanced object,
with braces inside JSON string literals not affecting the depth count. -/
theorem extract_object_ignores_braces_in_strings :
    extractFirstJsonObject "noise \x7b\"a\": \"b\x7bc\x7d\"\x7d trailing" =
      "\x7b\"a\": \"b\x7bc\x7d\"\x7d" := by rfl

/-! ## Claim about the JsonGuard retry budget -/

/-- One attempt on reply `raw` exhausts both decode candidates, the
repaired candidate failing with message `e`. -/
def attemptFails {α : Type} (decode : String → Except String α) (raw e : String) : Prop :=
  ∃ e1, validate_json_output decode raw = .error e1 ∧
    validate_json_output decode (local_json_repair raw) = .error e

/-- One attempt on reply `raw` validates to `v` (on the raw candidate or
on the repaired one). -/
def attemptSucceeds {α : Type} (decode : String → Except String α) (raw : String)
    (v : α) : Prop :=
  validate_json_output decode raw = .ok v ∨
    ∃ e1, validate_json_output decode raw = .error e1 ∧
      validate_json_output decode (local_json_repair raw) = .ok v

lemma runCandidates_of_fails {α : Type} {decode : String → Except String α} {raw e : String}
    (h : attemptFails decode raw e) (lastErr : String) :
    runCandidates decode raw lastErr = (Option.none, e) := by
  obtain ⟨e1, h1, h2⟩ := h
  simp [runCandidates, h1, h2]

lemma runCandidates_of_succeeds {α : Type} {decode : String → Except String α} {raw : String}
    {v : α} (h : attemptSucceeds decode raw v) (lastErr : String) :
    ∃ le, runCandidates decode raw lastErr = (some v, le) := by
  rcases h with h1 | ⟨e1, h1, h2⟩
  · exact ⟨lastErr, by simp [runCandidates, h1]⟩
  · exact ⟨e1, by simp [runCandidates, h1, h2]⟩

lemma jgRun_step_fail {α : Type} {decode : String → Except String α} {replies : Nat → String}
    {e : String} (fuel i : Nat) (trace : JsonGuardTrace)
    (h : attemptFails decode (replies i) e) :
    jgRun decode replies (fuel + 1) i trace =
      if fuel = 0 then (Option.none, ⟨trace.outputs ++ [replies i], e⟩)
      else jgRun decode replies fuel (i + 1) ⟨trace.outputs ++ [replies i], e⟩ := by
  simp only [jgRun, runCandidates_of_fails h]

lemma jgRun_step_succeed {α : Type} {decode : String → Except String α}
    {replies : Nat → String} {v : α} (fuel i : Nat) (trace : JsonGuardTrace)
    (h : attemptSucceeds decode (replies i) v) :
    ∃ le, jgRun decode replies (fuel + 1) i trace =
      (some v, ⟨trace.outputs ++ [replies i], le⟩) := by
  obtain ⟨le, hle⟩ := runCandidates_of_succeeds h trace.last_error
  exact ⟨le, by simp only [jgRun, hle]⟩

/-- C2: with `max_retries = 2` the guarded call makes at most three model
attempts.  If the first two replies fail and the third validates to `v`,
the result is `some v` with exactly the three raw replies recorded; if
all three fail, the result is `none` (an ordinary value, not an
exception) with exactly three recorded replies and a non-empty
`last_error`. -/
theorem generate_validated_json_budget {α : Type} (decode : String → Except String α)
    (rA rB : Nat → String) (v : α) (eA0 eA1 eB0 eB1 eB2 : String)
    (hA0 : attemptFails decode (rA 0) eA0) (hA1 : attemptFails decode (rA 1) eA1)
    (hA2 : attemptSucceeds decode (rA 2) v)
    (hB0 : attemptFails decode (rB 0) eB0) (hB1 : attemptFails decode (rB 1) eB1)
    (hB2 : attemptFails decode (rB 2) eB2) (hne : eB2 ≠ "") :
    ((generate_validated_json decode rA 2).1 = some v ∧
       (generate_validated_json decode rA 2).2.outputs = [rA 0, rA 1, rA 2]) ∧
    ((generate_validated_json decode rB 2).1 = Option.none ∧
       (generate_validated_json decode rB 2).2.outputs = [rB 0, rB 1, rB 2] ∧
       (generate_validated_json decode rB 2).2.last_error ≠ "") := by
  have hstartA : generate_validated_json decode rA 2 = jgRun decode rA 3 0 {} := rfl
  have hstartB : generate_validated_json decode rB 2 = jgRun decode rB 3 0 {} := rfl
  constructor
  · obtain ⟨le, hle⟩ := @jgRun_step_succeed α decode rA v 0 2
      ⟨[rA 0, rA 1], eA1⟩ hA2
    have : generate_validated_json decode rA 2 = (some v, ⟨[rA 0, rA 1, rA 2], le⟩) := by
      rw [hstartA, jgRun_step_fail 2 0 {} hA0]
      simp only [JsonGuardTrace.outputs, List.nil_append, if_neg (by omega : ¬ (2 = 0))]
      rw [jgRun_step_fail 1 1 ⟨[rA 0], eA0⟩ hA1]
      simp only [if_neg (by omega : ¬ (1 = 0))]
      simpa using hle
    simp [this]
  · have : generate_validated_json decode rB 2 = (Option.none, ⟨[rB 0, rB 1, rB 2], eB2⟩) := by
      rw [hstartB, jgRun_step_fail 2 0 {} hB0]
      simp only [JsonGuardTrace.outputs, List.nil_append, if_neg (by omega : ¬ (2 = 0))]
      rw [jgRun_step_fail 1 1 ⟨[rB 0], eB0⟩ hB1]
      simp only [if_neg (by omega : ¬ (1 = 0))]
      simpa using @jgRun_step_fail α decode rB eB2 0 2
        ⟨[rB 0, rB 1], eB1⟩ hB2
    simp [this, hne]

/-- A concrete decoder recognising only the empty JSON object. -/
def decodeEmptyObj : String → Except String Nat :=
  fun s => if s = "\x7b\x7d" then Except.ok 0 else Except.error "Expecting value: line 1 column 1"

/-- Replies: prose, prose, then a valid object. -/
def repliesA : Nat → String := fun i => if i ≤ 1 then "sin json" else "\x7b\x7d"

/-- Replies: prose on every attempt. -/
def repliesB : Nat → String := fun _ => "sin json"

/-- Witness for C2 at the concrete decoder and reply streams. -/
theorem generate_validated_json_budget_witness :
    ((generate_validated_json decodeEmptyObj repliesA 2).1 = some 0 ∧
       (generate_validated_json decodeEmptyObj repliesA 2).2.outputs =
         [repliesA 0, repliesA 1, repliesA 2]) ∧
    ((generate_validated_json decodeEmptyObj repliesB 2).1 = Option.none ∧
       (generate_validated_json decodeEmptyObj repliesB 2).2.outputs =
         [repliesB 0, repliesB 1, repliesB 2] ∧
       (generate_validated_json decodeEmptyObj repliesB 2).2.last_error ≠ "") :=
  generate_validated_json_budget decodeEmptyObj repliesA repliesB 0
    "No se encontro objeto JSON en la salida." "No se encontro objeto JSON en la salida."
    "No se encontro objeto JSON en la salida." "No se encontro objeto JSON en la salida."
    "No se encontro objeto JSON en la salida."
    ⟨"No se encontro objeto JSON en la salida.", rfl, rfl⟩
    ⟨"No se encontro objeto JSON en la salida.", rfl, rfl⟩
    (Or.inl rfl)
    ⟨"No se encontro objeto JSON en la salida.", rfl, rfl⟩
    ⟨"No se encontro objeto JSON en la salida.", rfl, rfl⟩
    ⟨"No se encontro objeto JSON en la salida.", rfl, rfl⟩
    (by decide)

/-! ## Claims about the router -/

/-- A heuristic decision with confidence 0.80. -/
def dHeur80 : RouteDecision := { confidence := 80/100 }

/-- A semantic decision with confidence 0.60. -/
def dSem60 : RouteDecision := { intent := "web_search", confidence := 60/100 }

/-- A semantic decision with confidence 0.75. -/
def dSem75 : RouteDecision := { intent := "web_search", confidence := 75/100 }

/-- C3: in `route`, the decision handed to sanitization is the semantic
one exactly when the semantic pass produced a decision whose confidence
is at least `max(0.35, heuristic.confidence - 0.10)`; otherwise the
heuristic decision is kept.  In particular heuristic 0.80 vs semantic
0.60 keeps the heuristic and heuristic 0.80 vs semantic 0.75 adopts the
semantic decision. -/
theorem route_confidence_fusion :
    (∀ (o : TextOracles) (registry : CapabilityRegistry) (scope : ProductScope)
       (llmOut : Option RouteDecision) (message : String),
       route o registry scope llmOut message =
         sanitize_decision o registry scope message
           (fuseDecision (heuristic_route o message)
             (semantic_route_with_llm registry llmOut))) ∧
    (∀ h s : RouteDecision,
       (s.confidence ≥ max (35/100 : ℚ) (h.confidence - 10/100) →
          fuseDecision h (some s) = s) ∧
       (s.confidence < max (35/100 : ℚ) (h.confidence - 10/100) →
          fuseDecision h (some s) = h)) ∧
    (∀ h : RouteDecision, fuseDecision h Option.none = h) ∧
    (∀ h s : RouteDecision, h.confidence = 80/100 → s.confidence = 60/100 →
       fuseDecision h (some s) = h) ∧
    (∀ h s : RouteDecision, h.confidence = 80/100 → s.confidence = 75/100 →
       fuseDecision h (some s) = s) := by
  refine ⟨fun _ _ _ _ _ => rfl, fun h s => ⟨fun hge => ?_, fun hlt => ?_⟩, fun h => rfl,
    fun h s h1 h2 => ?_, fun h s h1 h2 => ?_⟩
  · simp [fuseDecision, hge]
  · simp [fuseDecision, not_le.mpr hlt]
  · have hn : ¬ (s.confidence ≥ max (35/100 : ℚ) (h.confidence - 10/100)) := by
      rw [h1, h2]; norm_num
    simp [fuseDecision, hn]
  · have hy : s.confidence ≥ max (35/100 : ℚ) (h.confidence - 10/100) := by
      rw [h1, h2]; norm_num
    simp [fuseDecision, hy]

/-- Witness for C3 at the two numeric examples. -/
theorem route_confidence_fusion_witness :
    fuseDecision dHeur80 (some dSem60) = dHeur80 ∧
      fuseDecision dHeur80 (some dSem75) = dSem75 :=
  ⟨route_confidence_fusion.2.2.2.1 dHeur80 dSem60 rfl rfl,
   route_confidence_fusion.2.2.2.2 dHeur80 dSem75 rfl rfl⟩

/-- C6: whenever the scope allows `chat_general`, sanitization returns a
non-empty `candidate_tools`, whatever the registry, message and
pre-sanitization decision were. -/
theorem sanitize_nonempty_of_chat_general_in_scope (o : TextOracles)
    (registry : CapabilityRegistry) (scope : ProductScope) (message : String)
    (decision : RouteDecision) (h : scope.is_allowed "chat_general" = true) :
    (sanitize_decision o registry scope message decision).candidate_tools ≠ [] := by
  simp only [sanitize_decision]
  split_ifs with h1
  · simp
  · exact fun hnil => h1 (by simp [hnil])

/-- Witness for C6: an out-of-scope proposal still yields a non-empty
tool list when `chat_general` is in scope. -/
theorem sanitize_nonempty_witness :
    (sanitize_decision oracleNone regEmptyWithScope scopeCG "hola"
        { candidate_tools := ["rogue_tool"] }).candidate_tools ≠ [] :=
  sanitize_nonempty_of_chat_general_in_scope oracleNone regEmptyWithScope scopeCG "hola"
    { candidate_tools := ["rogue_tool"] } rfl

lemma mem_guardedCons {allowed l : List String} {x i : String} {c : Bool}
    (hc : c = true → allowed.contains x = true)
    (hl : i ∈ l → allowed.contains i = true)
    (h : i ∈ (if c = true then x :: l else l)) : allowed.contains i = true := by
  by_cases hb : c = true
  · rw [if_pos hb] at h
    rcases List.mem_cons.mp h with h2 | h2
    · rw [h2]; exact hc hb
    · exact hl h2
  · rw [if_neg hb] at h
    exact hl h

lemma mem_withChatFallback {registry : CapabilityRegistry} {l : List String} {i : String}
    (hl : i ∈ l → registry.all_ids.contains i = true)
    (h : i ∈ withChatFallback registry l) : registry.all_ids.contains i = true := by
  unfold withChatFallback at h
  split_ifs at h with h1 h2
  · rw [List.mem_singleton.mp h]; exact h2
  · simp at h
  · exact hl h

lemma mem_withTemporalTool {o : TextOracles} {registry : CapabilityRegistry}
    {message : String} {decision : RouteDecision} {l : List String} {i : String}
    (hl : i ∈ l → registry.all_ids.contains i = true)
    (h : i ∈ withTemporalTool o registry message decision l) :
    registry.all_ids.contains i = true := by
  unfold withTemporalTool at h
  exact mem_guardedCons
    (fun hg => by simp only [Bool.and_eq_true] at hg; exact hg.1.2) hl h

lemma mem_withIntentPrimary {registry : CapabilityRegistry} {intent i : String}
    {l : List String} (hl : i ∈ l → registry.all_ids.contains i = true)
    (h : i ∈ withIntentPrimary registry intent l) :
    registry.all_ids.contains i = true := by
  unfold withIntentPrimary at h
  split_ifs at h <;>
    first
      | exact hl h
      | (rcases List.mem_cons.mp h with h0 | h0
         · subst h0; simp_all [Bool.and_eq_true]
         · exact hl h0)

lemma mem_sanitizeFiltered {o : TextOracles} {registry : CapabilityRegistry}
    {message : String} {decision : RouteDecision} {intent i : String}
    (h : i ∈ sanitizeFiltered o registry message decision intent) :
    registry.all_ids.contains i = true := by
  unfold sanitizeFiltered at h
  refine mem_withIntentPrimary (fun h2 => ?_) h
  refine mem_withTemporalTool (fun h3 => ?_) h2
  refine mem_withChatFallback (fun h4 => ?_) h3
  exact (List.mem_filter.mp h4).2

/-- C1 (amended): after sanitization every id in `candidate_tools` is
allowed by the product scope, unconditionally; and provided
`chat_general` resolves in the registry whenever the scope allows it,
every id also resolves in the registry.  (The proviso attaches only to
resolvability: it is forced by the final fallback, which inserts
`chat_general` on scope membership alone.) -/
theorem sanitized_tools_resolvable_and_allowed (o : TextOracles)
    (registry : CapabilityRegistry) (scope : ProductScope) (message : String)
    (decision : RouteDecision) :
    ∀ i ∈ (sanitize_decision o registry scope message decision).candidate_tools,
      scope.is_allowed i = true ∧
        ((scope.is_allowed "chat_general" = true →
            registry.get "chat_general" ≠ Option.none) →
          registry.get i ≠ Option.none) := by
  intro i hi
  simp only [sanitize_decision] at hi
  split_ifs at hi with h1 h2
  · have h3 : i = "chat_general" := by simpa using hi
    subst h3
    exact ⟨h2, fun hcg => hcg h2⟩
  · simp at hi
  · simp only [ProductScope.filter_allowed] at hi
    have h3 := mem_filterAllowedGo hi
    have h4 := mem_sanitizeFiltered h3.1
    exact ⟨h3.2, fun _ => get_ne_none_of_mem_all_ids (by simpa using h4)⟩

/-- Witness for C1 (amended): a registry that does resolve
`chat_general`; the id survives sanitization allowed, and with the
proviso discharged it is also resolvable. -/
theorem sanitized_tools_resolvable_witness :
    scopeCG.is_allowed "chat_general" = true ∧
      regDenyPrimary.get "chat_general" ≠ Option.none :=
  have h := sanitized_tools_resolvable_and_allowed oracleNone regDenyPrimary scopeCG
    "hola" { candidate_tools := ["rogue_tool"] } "chat_general" (by decide)
  ⟨h.1, h.2 (fun _ heq => Option.noConfusion heq)⟩

/-- C1 counterexample: with `chat_general` allowed by scope but absent
from the registry, sanitization emits a tool id that is not resolvable in
the registry. -/
theorem sanitize_emits_unresolvable_chat_general :
    (sanitize_decision oracleNone regEmptyWithScope scopeCG "hola"
        { candidate_tools := [] }).candidate_tools = ["chat_general"] ∧
      regEmptyWithScope.get "chat_general" = Option.none :=
  ⟨rfl, rfl⟩

lemma sanitize_empty_scope_tools (o : TextOracles) (registry : CapabilityRegistry)
    (scope : ProductScope) (message : String) (decision : RouteDecision)
    (hall : registry.all_ids = []) (hscope : scope.capabilities = []) :
    (sanitize_decision o registry scope message decision).candidate_tools = [] := by
  have h0 : scopedTools registry decision = [] := by simp [scopedTools, hall]
  have h1 : withChatFallback registry [] = [] := by simp [withChatFallback, hall]
  have h2 : withTemporalTool o registry message decision [] = [] := by
    simp [withTemporalTool, hall]
  have h3 : ∀ intent, withIntentPrimary registry intent [] = [] := by
    intro intent
    unfold withIntentPrimary
    split_ifs <;> simp_all [hall]
  simp [sanitize_decision, sanitizeFiltered, h0, h1, h2, h3, ProductScope.filter_allowed,
    filterAllowedGo, ProductScope.is_allowed, hscope]

/-- C8: with an attached empty product scope, `all_ids` enumerates
nothing, and every `route` call returns an empty `candidate_tools`
whatever the message, history-driven semantic outcome and heuristic
were. -/
theorem empty_scope_all_ids_route_empty (o : TextOracles) (registry : CapabilityRegistry)
    (scope : ProductScope) (llmOut : Option RouteDecision) (message : String)
    (hattach : registry.product_scope = some scope) (hscope : scope.capabilities = []) :
    registry.all_ids = [] ∧
      (route o registry scope llmOut message).candidate_tools = [] := by
  have hall : registry.all_ids = [] := by
    simp [CapabilityRegistry.all_ids, hattach, ProductScope.is_allowed, hscope]
  refine ⟨hall, ?_⟩
  unfold route
  exact sanitize_empty_scope_tools o registry scope message _ hall hscope

/-- An empty product scope (deny-all). -/
def scopeEmpty : ProductScope := ⟨[]⟩

/-- A registry holding `chat_general` but attached to the empty scope. -/
def regWithEmptyScope : CapabilityRegistry :=
  { product_scope := some scopeEmpty,
    capabilities := [("chat_general", capDef "chat_general" [])] }

/-- Witness for C8 at a registry that does hold a capability. -/
theorem empty_scope_route_witness :
    regWithEmptyScope.all_ids = [] ∧
      (route oracleNone regWithEmptyScope scopeEmpty Option.none "hola").candidate_tools
        = [] :=
  empty_scope_all_ids_route_empty oracleNone regWithEmptyScope scopeEmpty Option.none
    "hola" rfl rfl

end ShaggyAI
